import Mathlib

/-!
Verification of the SkyDrop airspace raster converter
(`skydrop/utils/airspace/convert.py`).

The per-point pipeline (`dumpPoint`) sweeps altitude bands, chooses one
`AirspaceVector` per band, compacts the band map with three reduction
passes, and serializes at most `levels` entries of 4 bytes each into the
tile output buffer.  The tile driver (`dump`) skips existing files, runs a
coarse 10x10 emptiness pre-check and only then rasterizes the full grid.

The `Airspace` and `AirspaceVector` classes live in repository files
`Airspace.py` / `AirspaceVector.py` that are not part of the sources seen
here; their data fields and byte-encoding methods are modelled from the
specification (data model section and codec section) and are marked
`Modelled from the spec:` below.  Everything else is translated directly
from `convert.py`.

Heights are modelled as `Int` (altitude in feet), distances in the
provider's source unit (1 km = 100000 units) as `Nat`, bearings in degrees
as `Nat`.  Python dicts keyed by height and iterated via `sorted(keys())`
are modelled as association lists sorted by ascending key (the sweep
produces keys in strictly increasing order, so insertion order and sorted
order coincide).  `sys.exit(1)` (the fatal path) is modelled as `none`.
-/

/-- Modelled from the spec: the `Airspace` entity of `Airspace.py` (not in
the visible sources).  `getMin` / `getMax` are the floor / ceiling
altitudes in feet used by the sweep comparisons in `convert.py`;
`minAGL` / `maxAGL` are the AGL-vs-MSL reference flags used by the byte
encoder.  `id` stands for Python object identity (each loaded airspace is
a distinct object). -/
structure Airspace where
  id : Nat
  getMin : Int
  minAGL : Bool
  getMax : Int
  maxAGL : Bool
  deriving DecidableEq, Repr

/-- Modelled from the spec: the `AirspaceVector` value of
`AirspaceVector.py` (not in the visible sources): one airspace paired with
the computed distance (source units), bearing (degrees) and inside flag at
one point.  Candidate lists handed to `dumpPoint` are already filtered by
the geometry provider (`isTooFar` / distance-to-center prefilter). -/
structure AirspaceVector where
  airspace : Airspace
  distance : Nat
  angle : Nat
  inside : Bool
  deriving DecidableEq, Repr

/-- `levels = 5` from `convert.py`: each point stores `levels` elevation
levels. -/
def levels : Nat := 5

/-- `sizeof_level = 4` from `convert.py`: bytes per level record. -/
def sizeof_level : Nat := 4

/-- Modelled from the spec: distance byte of the level codec,
`clamp(round(distance / 64), 0, 255)`.  Rounding is modelled as
round-half-up; all concrete inputs used below are exact multiples of 64,
where every rounding convention agrees. -/
def AirspaceVector.getDistanceAsByte (av : AirspaceVector) : Nat :=
  min 255 ((av.distance + 32) / 64)

/-- Modelled from the spec: bearing byte of the level codec,
`round(bearing / 3)` plus 128 when the vector's `inside` flag is set.
Rounding is modelled as round-half-up; concrete inputs below are exact
multiples of 3. -/
def AirspaceVector.getAngleAsByte (av : AirspaceVector) : Nat :=
  (2 * av.angle + 3) / 6 + (if av.inside then 128 else 0)

/-- Modelled from the spec: altitude quantization of the level codec,
`round(alt / 250)` clamped to `[0, 127]` (negative altitudes clamp to 0). -/
def quantAlt (alt : Int) : Nat :=
  min 127 ((alt.toNat + 125) / 250)

/-- Modelled from the spec: `AirspaceVector.getBytes`, the 4-byte level
record `[floor, ceiling, bearing|insideFlag, distance]`. -/
def AirspaceVector.getBytes (av : AirspaceVector) : List Nat :=
  [ quantAlt av.airspace.getMin + (if av.airspace.minAGL then 128 else 0),
    quantAlt av.airspace.getMax + (if av.airspace.maxAGL then 128 else 0),
    av.getAngleAsByte,
    av.getDistanceAsByte ]

/-- Modelled from the spec: the default-constructed `AirspaceVector()`
used by `dumpPoint` to pad unused levels; its record is four zero bytes. -/
def AirspaceVector.empty : AirspaceVector :=
  { airspace := { id := 0, getMin := 0, minAGL := false, getMax := 0, maxAGL := false },
    distance := 0, angle := 0, inside := false }

/-- `findAirspacesInHeight` from `convert.py`: vectors whose band contains
`height` (`getMin() <= height < getMax()`). -/
def findAirspacesInHeight (avs : List AirspaceVector) (height : Int) : List AirspaceVector :=
  avs.filter (fun av => decide (av.airspace.getMin ≤ height ∧ height < av.airspace.getMax))

/-- `findAirspacesInside` from `convert.py`. -/
def findAirspacesInside (avs : List AirspaceVector) : List AirspaceVector :=
  avs.filter (fun av => av.inside)

/-- `findAirspacesNotInside` from `convert.py`. -/
def findAirspacesNotInside (avs : List AirspaceVector) : List AirspaceVector :=
  avs.filter (fun av => !av.inside)

/-- `findLowestHeightInAirspaces` from `convert.py` (fold keeping the
smallest floor; the source updates on `<=`). -/
def findLowestHeightInAirspaces (avs : List AirspaceVector) : Option Int :=
  avs.foldl
    (fun minHeight av =>
      match minHeight with
      | none => some av.airspace.getMin
      | some m => if av.airspace.getMin ≤ m then some av.airspace.getMin else some m)
    none

/-- `findHighestHeightInAirspaces` from `convert.py` (fold keeping the
largest ceiling; the source updates on `>`). -/
def findHighestHeightInAirspaces (avs : List AirspaceVector) : Option Int :=
  avs.foldl
    (fun maxHeight av =>
      match maxHeight with
      | none => some av.airspace.getMax
      | some m => if m < av.airspace.getMax then some av.airspace.getMax else some m)
    none

/-- One accumulator update of `findNextHeightInAirspaces`: consider a
candidate breakpoint `newHeight`, keep it when it lies strictly above `h`. -/
def stepNext (h : Int) (nextHeight : Option Int) (newHeight : Int) : Option Int :=
  if h < newHeight then
    match nextHeight with
    | none => some newHeight
    | some n => some (min n newHeight)
  else nextHeight

/-- `findNextHeightInAirspaces` from `convert.py`: the smallest
floor/ceiling value of any vector that is strictly greater than `h`
(`None` when no such value exists).  Each vector contributes its floor,
then its ceiling, in list order. -/
def findNextHeightInAirspaces (avs : List AirspaceVector) (h : Int) : Option Int :=
  avs.foldl (fun next av => stepNext h (stepNext h next av.airspace.getMin) av.airspace.getMax) none

/-- `findNearestAirspace` from `convert.py`: fold keeping the vector with
strictly smaller distance, hence the first vector attaining the minimum. -/
def findNearestAirspace (avs : List AirspaceVector) : Option AirspaceVector :=
  avs.foldl
    (fun nearest av =>
      match nearest with
      | none => some av
      | some n => if av.distance < n.distance then some av else some n)
    none

/-- `findFarestAirspace` from `convert.py`: fold keeping the vector with
strictly larger distance, hence the first vector attaining the maximum. -/
def findFarestAirspace (avs : List AirspaceVector) : Option AirspaceVector :=
  avs.foldl
    (fun farest av =>
      match farest with
      | none => some av
      | some f => if f.distance < av.distance then some av else some f)
    none

/-- Height-band map: association list (altitude, chosen vector), kept in
ascending key order (the order the sweep of `dumpPoint` inserts keys and
the order `sorted(keys())` iterates them). -/
abbrev HMap := List (Int × AirspaceVector)

/-- The vector chosen by `dumpPoint` for the band starting at `h`: the
nearest among the inside vectors covering `h` when any vector covering `h`
is inside, otherwise the nearest among all vectors covering `h`. -/
def chooseForBand (avs : List AirspaceVector) (h : Int) : Option AirspaceVector :=
  let airspacesInThisHeight := findAirspacesInHeight avs h
  let airspacesInside := findAirspacesInside airspacesInThisHeight
  if airspacesInside = [] then findNearestAirspace airspacesInThisHeight
  else findNearestAirspace airspacesInside

/-- The `while h != None and h < hMax` sweep of `dumpPoint`, with explicit
fuel.  Each iteration handles one band start `h` and advances to
`findNextHeightInAirspaces avs h`.  The caller passes fuel
`2 * avs.length + 1`: after the first iteration `h` is always one of the
at most `2 * avs.length` floor/ceiling values and strictly increases, so
the fuel is never exhausted. -/
def sweepAux (avs : List AirspaceVector) (hMax : Int) : Nat → Int → HMap
  | 0, _ => []
  | fuel + 1, h =>
    if h < hMax then
      match chooseForBand avs h, findNextHeightInAirspaces avs h with
      | some v, some h2 => (h, v) :: sweepAux avs hMax fuel h2
      | some v, none => [(h, v)]
      | none, some h2 => sweepAux avs hMax fuel h2
      | none, none => []
    else []

/-- The `sortedAirspaces` map built by the sweep phase of `dumpPoint`:
start at the lowest floor, stop at the highest ceiling. -/
def sortedAirspacesOf (avs : List AirspaceVector) : HMap :=
  match findLowestHeightInAirspaces avs, findHighestHeightInAirspaces avs with
  | some hMin, some hMax => sweepAux avs hMax (2 * avs.length + 1) hMin
  | _, _ => []

/-- Pass 1 body from `dumpPoint` ("Eliminate all subsequent identical
airspaces"): walk ascending, keep an entry iff its airspace differs from
the airspace of the entry immediately before it in the input order
(`sortedAirspaces[heights[i]].airspace != sortedAirspaces[heights[i+1]].airspace`). -/
def pass1Keep (prev : AirspaceVector) : HMap → HMap
  | [] => []
  | (h, v) :: rest =>
    if v.airspace ≠ prev.airspace then (h, v) :: pass1Keep v rest
    else pass1Keep v rest

/-- Pass 1 of `dumpPoint`: the first (lowest) entry is always kept. -/
def pass1 : HMap → HMap
  | [] => []
  | (h, v) :: rest => (h, v) :: pass1Keep v rest

/-- Pass 2 body from `dumpPoint` ("Eliminate all subsequent airspaces with
same angle/distance"): keep an entry iff its encoded distance byte differs
from that of the entry immediately before it in the input order, or their
encoded bearing bytes differ by more than 5. -/
def pass2Keep (prev : AirspaceVector) : HMap → HMap
  | [] => []
  | (h, v) :: rest =>
    if prev.getDistanceAsByte ≠ v.getDistanceAsByte ∨
        5 < ((prev.getAngleAsByte : Int) - (v.getAngleAsByte : Int)).natAbs then
      (h, v) :: pass2Keep v rest
    else pass2Keep v rest

/-- Pass 2 of `dumpPoint`: applied only when the map still has more than
`levels` entries; the first (lowest) entry is always kept. -/
def pass2 (m : HMap) : HMap :=
  if levels < m.length then
    match m with
    | [] => []
    | (h, v) :: rest => (h, v) :: pass2Keep v rest
  else m

/-- One iteration of the Pass 3 loop of `dumpPoint` ("Delete all airspaces
which are far away"): find the farthest not-inside vector among the map
values; `none` models the fatal `sys.exit(1)` when no such vector exists;
otherwise remove every entry whose value is that vector (the source
compares `compactAirspaces[height] != farestAirspace`, object identity). -/
def pass3Step (m : HMap) : Option HMap :=
  let outsideAirspaces := findAirspacesNotInside (m.map Prod.snd)
  match findFarestAirspace outsideAirspaces with
  | none => none
  | some farestAirspace => some (m.filter (fun hv => !decide (hv.2 = farestAirspace)))

/-- The `while len(compactAirspaces) > levels` loop of Pass 3, with
explicit fuel.  The caller passes fuel `m.length`: every successful
iteration removes at least one entry (the farthest vector is a value of
the map), so the fuel is never exhausted. -/
def pass3Loop : Nat → HMap → Option HMap
  | 0, m => if levels < m.length then none else some m
  | fuel + 1, m =>
    if levels < m.length then
      match pass3Step m with
      | none => none
      | some m2 => pass3Loop fuel m2
    else some m

/-- The full compaction pipeline of `dumpPoint`: sweep, Pass 1, Pass 2,
Pass 3.  `none` models the fatal exit of Pass 3. -/
def compactAirspacesOf (avs : List AirspaceVector) : Option HMap :=
  let m := pass2 (pass1 (sortedAirspacesOf avs))
  pass3Loop m.length m

/-- The byte-writing loop of `dumpPoint`: `output[offset] = byte; offset += 1`
for each byte, modelled with `List.set` (callers keep
`offset + bytes.length <= output.length`, matching the in-range accesses
of the source). -/
def writeBytes (output : List Nat) (offset : Nat) : List Nat → List Nat
  | [] => output
  | b :: rest => writeBytes (output.set offset b) (offset + 1) rest

/-- The 20 bytes `dumpPoint` produces for one point: each surviving
entry's record in ascending altitude order, then empty records up to
`levels`.  `none` models the fatal exit of Pass 3. -/
def dumpPointBytes (avs : List AirspaceVector) : Option (List Nat) :=
  (compactAirspacesOf avs).map (fun m =>
    ((m.map Prod.snd).map AirspaceVector.getBytes).flatten ++
      ((List.replicate (levels - m.length) AirspaceVector.empty).map AirspaceVector.getBytes).flatten)

/-- `dumpPoint` from `convert.py`, restricted to its effect on the output
buffer: candidate vectors (already provider-filtered) are resolved,
compacted and serialized at `offset`.  `none` models the fatal exit. -/
def dumpPoint (output : List Nat) (offset : Nat) (avs : List AirspaceVector) :
    Option (List Nat) :=
  (dumpPointBytes avs).map (writeBytes output offset)

/-- Decoded ceiling field of the checkpoint printer in `main`: either a
numeric altitude in feet or the `"MAX"` sentinel. -/
inductive CeilField where
  | num (v : Nat)
  | max
  deriving DecidableEq, Repr

/-- One decoded level of the checkpoint printer in `main`. -/
structure DecodedLevel where
  floor : Nat
  floorAGL : Bool
  ceil : CeilField
  ceilAGL : Bool
  angle : Nat
  inside : Bool
  distance : Nat
  deriving DecidableEq, Repr

/-- The 4-byte level decoder of the checkpoint branch of `main`
(`convert.py` lines 530-571): AGL flag in the high bit of bytes 0 and 1,
inside flag in the high bit of byte 2, x250 / x3 / x64 dequantization.
`ceil == 0` prints `"---"` and skips the level, modelled as `none`;
`ceil_raw & 0x7F == 0x7F` prints `"MAX"`, modelled as `CeilField.max`
(`b1 % 128` equals `b1 &&& 0x7F` for every natural `b1`). -/
def decodeLevel (b0 b1 b2 b3 : Nat) : Option DecodedLevel :=
  let floorAGL := 127 < b0
  let floor := (if floorAGL then b0 - 128 else b0) * 250
  let ceilAGL := 127 < b1
  let ceil := (if ceilAGL then b1 - 128 else b1) * 250
  let inside := 127 < b2
  let angle := (if inside then b2 - 128 else b2) * 3
  let distance := b3 * 64
  if ceil = 0 then none
  else
    some { floor := floor, floorAGL := floorAGL,
           ceil := if b1 % 128 = 127 then CeilField.max else CeilField.num ceil,
           ceilAGL := ceilAGL, angle := angle, inside := inside, distance := distance }

/-- Outcome of `dump` for one tile.  `skipped`: the output file existed and
no buffer was allocated, computed or written.  `noFile`: the emptiness
pre-check (and final check) found nothing, no file was created.
`fileCreatedEmpty`: the file was opened but the final buffer was all zero,
so nothing was written into it.  `file`: the buffer was written out. -/
inductive DumpResult where
  | skipped
  | noFile
  | fileCreatedEmpty
  | file (bytes : List Nat)
  deriving DecidableEq, Repr

/-- The fixed 10x10 sample grid of the emptiness quick-check in `dump`:
`numpy.arange(lat, lat+1, 1/10)` x `numpy.arange(lon, lon+1, 1/10)`,
latitude in the outer loop; each sample is the point
`(x, y) = (lon + j/10, lat + i/10)` (exact rationals stand in for the
exact-in-this-range numpy floats). -/
def samplePoints (lat lon : Int) : List (ℚ × ℚ) :=
  (List.range 10).flatMap (fun (i : Nat) =>
    (List.range 10).map (fun (j : Nat) =>
      ((lon : ℚ) + (j : ℚ) / 10, (lat : ℚ) + (i : ℚ) / 10)))

/-- The emptiness quick-check loop of `dump`: every sample point's record
is written at buffer offset 0, and after each point only the first
`levels * sizeof_level` bytes of the buffer are inspected; a nonzero byte
there clears `isEmpty`.  `none` models a fatal exit inside `dumpPoint`. -/
def quickCheck (avsAt : ℚ → ℚ → List AirspaceVector) :
    List (ℚ × ℚ) → List Nat → Bool → Option (List Nat × Bool)
  | [], output, isEmpty => some (output, isEmpty)
  | (x, y) :: rest, output, isEmpty =>
    match dumpPoint output 0 (avsAt x y) with
    | none => none
    | some out2 =>
      quickCheck avsAt rest out2
        (isEmpty && (List.range (levels * sizeof_level)).all (fun k => decide (out2.getD k 0 = 0)))

/-- The full raster grid of `dump` with per-cell byte offsets: point
`(lon + j/numPoints, lat + i/numPoints)` lands at cell offset
`((numPoints - 1 - i) * numPoints + j) * levels * sizeof_level` (in the
source, `y = (lat_i - lat) * numPoints` and `x = (lon_i - lon) * numPoints`
are exactly `i` and `j`, so the `int(...)` truncations are exact). -/
def gridPoints (lat lon : Int) (numPoints : Nat) : List (ℚ × ℚ × Nat) :=
  (List.range numPoints).flatMap (fun (i : Nat) =>
    (List.range numPoints).map (fun (j : Nat) =>
      let offset : Nat := ((numPoints - 1 - i) * numPoints + j) * (levels * sizeof_level)
      ((lon : ℚ) + (j : ℚ) / numPoints, (lat : ℚ) + (i : ℚ) / numPoints, offset)))

/-- The main raster loop of `dump`: one `dumpPoint` per grid cell at that
cell's offset.  `none` models a fatal exit inside `dumpPoint`. -/
def fullLoop (avsAt : ℚ → ℚ → List AirspaceVector) :
    List (ℚ × ℚ × Nat) → List Nat → Option (List Nat)
  | [], output => some output
  | (x, y, offset) :: rest, output =>
    match dumpPoint output offset (avsAt x y) with
    | none => none
    | some out2 => fullLoop avsAt rest out2

/-- `dump` from `convert.py` for one tile.  `fileExists` is the
`os.path.isfile(filename)` test, `force` the `-f` flag; the skip test runs
before the buffer is allocated.  When the quick-check leaves `isEmpty`
set, the raster loop never runs and no file is opened; the final all-zero
scan then reports "is empty" (the unreachable nonzero case would crash on
the unopened file handle and is modelled as `none`).  Otherwise the file
is opened, the raster loop fills the buffer, and the final scan either
leaves the created file empty or writes the buffer. -/
def dump (fileExists force : Bool) (avsAt : ℚ → ℚ → List AirspaceVector)
    (lat lon : Int) (numPoints : Nat) : Option DumpResult :=
  if fileExists && !force then some DumpResult.skipped
  else
    let filesize := numPoints * numPoints * levels * sizeof_level
    let output := List.replicate filesize 0
    match quickCheck avsAt (samplePoints lat lon) output true with
    | none => none
    | some (out1, isEmpty) =>
      if isEmpty then
        if out1.all (fun b => decide (b = 0)) then some DumpResult.noFile else none
      else
        match fullLoop avsAt (gridPoints lat lon numPoints) out1 with
        | none => none
        | some out2 =>
          if out2.all (fun b => decide (b = 0)) then some DumpResult.fileCreatedEmpty
          else some (DumpResult.file out2)

/-! ### Specification-side definitions

These follow the wording of the specification / claims and are compared
against the source-derived definitions above. -/

/-- Spec wording: `v` is the vector with minimum distance in `l`, ties
resolved to the first encountered in input order (every vector before `v`
is strictly farther). -/
def isFirstNearest (l : List AirspaceVector) (v : AirspaceVector) : Prop :=
  ∃ l1 l2, l = l1 ++ v :: l2 ∧ (∀ w ∈ l, v.distance ≤ w.distance) ∧
    ∀ w ∈ l1, v.distance < w.distance

/-- Spec wording: `v` is the vector with maximum distance in `l`, ties
resolved to the first encountered in input order. -/
def isFirstFarest (l : List AirspaceVector) (v : AirspaceVector) : Prop :=
  ∃ l1 l2, l = l1 ++ v :: l2 ∧ (∀ w ∈ l, w.distance ≤ v.distance) ∧
    ∀ w ∈ l1, w.distance < v.distance

/-- The floor/ceiling breakpoints of all candidate vectors (spec wording:
"all vectors' floor/ceiling values"). -/
def keyHeights (avs : List AirspaceVector) : List Int :=
  avs.foldr (fun av ks => av.airspace.getMin :: av.airspace.getMax :: ks) []

/-- Claim C7 wording of the Pass 1 drop rule: drop a band iff its airspace
equals the airspace of the immediately preceding *surviving* band (`prev`
stays put on a drop). -/
def claimPass1Keep (prev : AirspaceVector) : HMap → HMap
  | [] => []
  | (h, v) :: rest =>
    if v.airspace = prev.airspace then claimPass1Keep prev rest
    else (h, v) :: claimPass1Keep v rest

/-- Claim C7 wording of Pass 1: lowest band always kept, then
`claimPass1Keep`. -/
def claimPass1 : HMap → HMap
  | [] => []
  | (h, v) :: rest => (h, v) :: claimPass1Keep v rest

/-- The Pass 2 drop condition (spec wording): equal encoded distance bytes
and encoded bearing bytes within 5 units. -/
def nearDuplicate (prev v : AirspaceVector) : Prop :=
  prev.getDistanceAsByte = v.getDistanceAsByte ∧
    ((prev.getAngleAsByte : Int) - (v.getAngleAsByte : Int)).natAbs ≤ 5

instance (prev v : AirspaceVector) : Decidable (nearDuplicate prev v) := by
  unfold nearDuplicate; infer_instance

/-- Claim C4 wording of the Pass 2 drop rule: drop a band iff it is a near
duplicate of the immediately preceding *surviving* band (`prev` stays put
on a drop). -/
def claimPass2Keep (prev : AirspaceVector) : HMap → HMap
  | [] => []
  | (h, v) :: rest =>
    if nearDuplicate prev v then claimPass2Keep prev rest
    else (h, v) :: claimPass2Keep v rest

/-- Claim C4 wording of Pass 2: applied only above `levels` entries,
lowest band always kept, then `claimPass2Keep`. -/
def claimPass2 (m : HMap) : HMap :=
  if levels < m.length then
    match m with
    | [] => []
    | (h, v) :: rest => (h, v) :: claimPass2Keep v rest
  else m

/-! ### Concrete scenario data (counterexamples and witnesses) -/

/-- Airspace spanning [0, 30) ft, far from the point. -/
def airX : Airspace := { id := 1, getMin := 0, minAGL := false, getMax := 30, maxAGL := false }

/-- Airspace spanning [10, 20) ft, near the point. -/
def airY : Airspace := { id := 2, getMin := 10, minAGL := false, getMax := 20, maxAGL := false }

/-- Airspace spanning [30, 40) ft. -/
def airZ1 : Airspace := { id := 3, getMin := 30, minAGL := false, getMax := 40, maxAGL := false }

/-- Airspace spanning [40, 50) ft. -/
def airZ2 : Airspace := { id := 4, getMin := 40, minAGL := false, getMax := 50, maxAGL := false }

/-- Airspace spanning [50, 60) ft. -/
def airZ3 : Airspace := { id := 5, getMin := 50, minAGL := false, getMax := 60, maxAGL := false }

/-- Vector to `airX`: distance 640 (byte 10), not inside. -/
def avX : AirspaceVector := { airspace := airX, distance := 640, angle := 0, inside := false }

/-- Vector to `airY`: distance 64 (byte 1), not inside. -/
def avY : AirspaceVector := { airspace := airY, distance := 64, angle := 0, inside := false }

/-- Vector to `airZ1`: distance 192 (byte 3), not inside. -/
def avZ1 : AirspaceVector := { airspace := airZ1, distance := 192, angle := 0, inside := false }

/-- Vector to `airZ2`: distance 320 (byte 5), not inside. -/
def avZ2 : AirspaceVector := { airspace := airZ2, distance := 320, angle := 0, inside := false }

/-- Vector to `airZ3`: distance 448 (byte 7), not inside. -/
def avZ3 : AirspaceVector := { airspace := airZ3, distance := 448, angle := 0, inside := false }

/-- Candidate set for the Pass 3 counterexample: `airX` is chosen both
below and above `airY`'s band, so the map entry at heights 0 and 20 is the
same vector object. -/
def avsC5 : List AirspaceVector := [avX, avY, avZ1, avZ2, avZ3]

/-- The height-band map the sweep produces for `avsC5` (6 entries, `avX`
appearing twice). -/
def mC5 : HMap := [(0, avX), (10, avY), (20, avX), (30, avZ1), (40, avZ2), (50, avZ3)]

/-- The map after one Pass 3 iteration on `mC5`: both `avX` entries gone. -/
def mC5r : HMap := [(10, avY), (30, avZ1), (40, avZ2), (50, avZ3)]

/-- A non-inside vector with distance byte 1 and the given id/bearing, for
the Pass 2 counterexample. -/
def mkAV (i : Nat) (a : Nat) : AirspaceVector :=
  { airspace := { id := i, getMin := 0, minAGL := false, getMax := 10, maxAGL := false },
    distance := 64, angle := a, inside := false }

/-- Pass 2 counterexample map: six bands, all with distance byte 1 and
bearing bytes 0, 5, 10, 15, 20, 25 — each band is a near duplicate of its
immediate predecessor but not of the band two before it. -/
def mC4 : HMap :=
  [(0, mkAV 1 0), (10, mkAV 2 15), (20, mkAV 3 30),
   (30, mkAV 4 45), (40, mkAV 5 60), (50, mkAV 6 75)]

/-- An inside vector for the Pass 3 fatal-case witness. -/
def mkInsideAV (i : Nat) : AirspaceVector :=
  { airspace := { id := i, getMin := 0, minAGL := false, getMax := 10, maxAGL := false },
    distance := 64 * i, angle := 0, inside := true }

/-- Six simultaneous inside entries: the level budget `levels = 5` is
structurally insufficient, Pass 3 must be fatal. -/
def mC1 : HMap :=
  [(0, mkInsideAV 1), (10, mkInsideAV 2), (20, mkInsideAV 3),
   (30, mkInsideAV 4), (40, mkInsideAV 5), (50, mkInsideAV 6)]

/-- Airspace for the tile-emptiness witness, [0, 1000) ft MSL. -/
def airW : Airspace := { id := 7, getMin := 0, minAGL := false, getMax := 1000, maxAGL := false }

/-- Inside vector for the tile-emptiness witness. -/
def avW : AirspaceVector := { airspace := airW, distance := 0, angle := 0, inside := true }

/-- Geometry provider for the tile-emptiness witness: one airspace visible
only at the point (1/3, 1/3), which lies on the 3x3 raster grid of tile
(0, 0) but on none of the fixed 10x10 sample points. -/
def avsAtW : ℚ → ℚ → List AirspaceVector :=
  fun x y => if x = 1 / 3 ∧ y = 1 / 3 then [avW] else []

/-! ### General lemmas about the selection folds -/

/-- Characterization of the `findFarestAirspace` fold from a `some`
accumulator: the result is the accumulator itself (already maximal) or the
first strictly-larger element of the remaining list. -/
lemma farest_aux (t : List AirspaceVector) : ∀ c : AirspaceVector,
    ∃ v, t.foldl
        (fun farest av =>
          match farest with
          | none => some av
          | some f => if f.distance < av.distance then some av else some f)
        (some c) = some v ∧
      ((v = c ∧ ∀ w ∈ t, w.distance ≤ c.distance) ∨
        (∃ t1 t2, t = t1 ++ v :: t2 ∧ c.distance < v.distance ∧
          (∀ w ∈ t1, w.distance < v.distance) ∧ ∀ w ∈ t2, w.distance ≤ v.distance)) := by
  induction t with
  | nil => exact fun c => ⟨c, rfl, Or.inl ⟨rfl, by simp⟩⟩
  | cons a t ih =>
    intro c
    by_cases hlt : c.distance < a.distance
    · obtain ⟨v, hv, hch⟩ := ih a
      refine ⟨v, by simpa [hlt] using hv, Or.inr ?_⟩
      rcases hch with ⟨rfl, hbnd⟩ | ⟨t1, t2, rfl, hgt, hstrict, hle⟩
      · exact ⟨[], t, rfl, hlt, by simp, hbnd⟩
      · exact ⟨a :: t1, t2, rfl, lt_trans hlt hgt,
          fun w hw => by rcases List.mem_cons.mp hw with rfl | hw' ; exact hgt; exact hstrict w hw', hle⟩
    · obtain ⟨v, hv, hch⟩ := ih c
      refine ⟨v, by simpa [hlt] using hv, ?_⟩
      rcases hch with ⟨rfl, hbnd⟩ | ⟨t1, t2, rfl, hgt, hstrict, hle⟩
      · exact Or.inl ⟨rfl, fun w hw => by
          rcases List.mem_cons.mp hw with rfl | hw'; exact le_of_not_lt hlt; exact hbnd w hw'⟩
      · exact Or.inr ⟨a :: t1, t2, rfl, hgt,
          fun w hw => by
            rcases List.mem_cons.mp hw with rfl | hw'
            · exact lt_of_le_of_lt (le_of_not_lt hlt) hgt
            · exact hstrict w hw',
          hle⟩

/-- A successful `findFarestAirspace` returns the first vector attaining
the maximum distance. -/
lemma findFarestAirspace_char {l : List AirspaceVector} {v : AirspaceVector}
    (h : findFarestAirspace l = some v) : isFirstFarest l v := by
  cases l with
  | nil => simp [findFarestAirspace] at h
  | cons a t =>
    obtain ⟨v', hv', hch⟩ := farest_aux t a
    rw [findFarestAirspace, List.foldl_cons] at h
    have hvv : v = v' := by
      have := hv'.symm.trans h
      exact (Option.some_injective _ this).symm
    subst hvv
    rcases hch with ⟨rfl, hbnd⟩ | ⟨t1, t2, rfl, hgt, hstrict, hle⟩
    · exact ⟨[], t, rfl, fun w hw => by
        rcases List.mem_cons.mp hw with rfl | hw'; exact le_refl _; exact hbnd w hw', by simp⟩
    · refine ⟨a :: t1, t2, rfl, ?_, ?_⟩
      · intro w hw
        rcases List.mem_cons.mp hw with rfl | hw'
        · exact le_of_lt hgt
        · rcases List.mem_append.mp hw' with hw1 | hw2
          · exact le_of_lt (hstrict w hw1)
          · rcases List.mem_cons.mp hw2 with rfl | hw3; exact le_refl _; exact hle w hw3
      · intro w hw
        rcases List.mem_cons.mp hw with rfl | hw'; exact hgt; exact hstrict w hw'

/-- A nonempty list always yields a farthest vector. -/
lemma findFarestAirspace_isSome {l : List AirspaceVector} (h : l ≠ []) :
    ∃ v, findFarestAirspace l = some v := by
  cases l with
  | nil => exact absurd rfl h
  | cons a t =>
    obtain ⟨v, hv, _⟩ := farest_aux t a
    exact ⟨v, by rw [findFarestAirspace, List.foldl_cons]; exact hv⟩

/-- A successful `findFarestAirspace` returns a member of its input. -/
lemma findFarestAirspace_mem {l : List AirspaceVector} {v : AirspaceVector}
    (h : findFarestAirspace l = some v) : v ∈ l := by
  obtain ⟨l1, l2, rfl, -, -⟩ := findFarestAirspace_char h
  exact List.mem_append.mpr (Or.inr (List.mem_cons_self _ _))

/-- Characterization of the `findNearestAirspace` fold from a `some`
accumulator: mirror image of `farest_aux`. -/
lemma nearest_aux (t : List AirspaceVector) : ∀ c : AirspaceVector,
    ∃ v, t.foldl
        (fun nearest av =>
          match nearest with
          | none => some av
          | some n => if av.distance < n.distance then some av else some n)
        (some c) = some v ∧
      ((v = c ∧ ∀ w ∈ t, c.distance ≤ w.distance) ∨
        (∃ t1 t2, t = t1 ++ v :: t2 ∧ v.distance < c.distance ∧
          (∀ w ∈ t1, v.distance < w.distance) ∧ ∀ w ∈ t2, v.distance ≤ w.distance)) := by
  induction t with
  | nil => exact fun c => ⟨c, rfl, Or.inl ⟨rfl, by simp⟩⟩
  | cons a t ih =>
    intro c
    by_cases hlt : a.distance < c.distance
    · obtain ⟨v, hv, hch⟩ := ih a
      refine ⟨v, by simpa [hlt] using hv, Or.inr ?_⟩
      rcases hch with ⟨rfl, hbnd⟩ | ⟨t1, t2, rfl, hgt, hstrict, hle⟩
      · exact ⟨[], t, rfl, hlt, by simp, hbnd⟩
      · exact ⟨a :: t1, t2, rfl, lt_trans hgt hlt,
          fun w hw => by rcases List.mem_cons.mp hw with rfl | hw'; exact hgt; exact hstrict w hw', hle⟩
    · obtain ⟨v, hv, hch⟩ := ih c
      refine ⟨v, by simpa [hlt] using hv, ?_⟩
      rcases hch with ⟨rfl, hbnd⟩ | ⟨t1, t2, rfl, hgt, hstrict, hle⟩
      · exact Or.inl ⟨rfl, fun w hw => by
          rcases List.mem_cons.mp hw with rfl | hw'; exact le_of_not_lt hlt; exact hbnd w hw'⟩
      · exact Or.inr ⟨a :: t1, t2, rfl, hgt,
          fun w hw => by
            rcases List.mem_cons.mp hw with rfl | hw'
            · exact lt_of_lt_of_le hgt (le_of_not_lt hlt)
            · exact hstrict w hw',
          hle⟩

/-- A successful `findNearestAirspace` returns the first vector attaining
the minimum distance (the spec's load-bearing input-order tie-break). -/
lemma findNearestAirspace_char {l : List AirspaceVector} {v : AirspaceVector}
    (h : findNearestAirspace l = some v) : isFirstNearest l v := by
  cases l with
  | nil => simp [findNearestAirspace] at h
  | cons a t =>
    obtain ⟨v', hv', hch⟩ := nearest_aux t a
    rw [findNearestAirspace, List.foldl_cons] at h
    have hvv : v = v' := by
      have := hv'.symm.trans h
      exact (Option.some_injective _ this).symm
    subst hvv
    rcases hch with ⟨rfl, hbnd⟩ | ⟨t1, t2, rfl, hgt, hstrict, hle⟩
    · exact ⟨[], t, rfl, fun w hw => by
        rcases List.mem_cons.mp hw with rfl | hw'; exact le_refl _; exact hbnd w hw', by simp⟩
    · refine ⟨a :: t1, t2, rfl, ?_, ?_⟩
      · intro w hw
        rcases List.mem_cons.mp hw with rfl | hw'
        · exact le_of_lt hgt
        · rcases List.mem_append.mp hw' with hw1 | hw2
          · exact le_of_lt (hstrict w hw1)
          · rcases List.mem_cons.mp hw2 with rfl | hw3; exact le_refl _; exact hle w hw3
      · intro w hw
        rcases List.mem_cons.mp hw with rfl | hw'; exact hgt; exact hstrict w hw'

/-! ### Pass 1 (C7) -/

/-- The Pass 1 keep condition only looks at the predecessor's airspace. -/
lemma pass1Keep_congr (l : HMap) : ∀ p q : AirspaceVector, p.airspace = q.airspace →
    pass1Keep p l = pass1Keep q l := by
  induction l with
  | nil => intro p q _; rfl
  | cons e rest ih =>
    intro p q hpq
    obtain ⟨h, v⟩ := e
    simp only [pass1Keep, hpq]

/-- Comparing each band to its immediate predecessor (the source) equals
comparing it to the previous surviving band (the claim): a dropped band
has the same airspace as its predecessor, so the reference airspace never
changes across a drop. -/
lemma pass1Keep_eq_claim (l : HMap) : ∀ prev : AirspaceVector,
    pass1Keep prev l = claimPass1Keep prev l := by
  induction l with
  | nil => intro prev; rfl
  | cons e rest ih =>
    intro prev
    obtain ⟨h, v⟩ := e
    by_cases hc : v.airspace = prev.airspace
    · rw [pass1Keep, if_neg (by simpa using hc), claimPass1Keep, if_pos hc,
        pass1Keep_congr rest v prev hc]
      exact ih prev
    · rw [pass1Keep, if_pos (by simpa using hc), claimPass1Keep, if_neg hc, ih v]

/-- After `claimPass1Keep prev`, consecutive surviving bands have distinct
airspaces (including against the entry carrying `prev`). -/
lemma claimPass1Keep_chain (l : HMap) : ∀ (prev : AirspaceVector) (hp : Int),
    List.Chain' (fun a b : Int × AirspaceVector => a.2.airspace ≠ b.2.airspace)
      ((hp, prev) :: claimPass1Keep prev l) := by
  induction l with
  | nil => intro prev hp; simp [claimPass1Keep]
  | cons e rest ih =>
    intro prev hp
    obtain ⟨h, v⟩ := e
    by_cases hc : v.airspace = prev.airspace
    · rw [claimPass1Keep, if_pos hc]
      exact ih prev hp
    · rw [claimPass1Keep, if_neg hc, List.chain'_cons]
      exact ⟨fun hh => hc hh.symm, ih v h⟩

/-- C7 — Pass 1 (adjacent-duplicate elimination), walking altitudes
ascending, drops every band whose chosen vector's airspace is identical to
the immediately preceding surviving band's airspace (`pass1 = claimPass1`),
so runs of consecutive bands choosing the same airspace collapse to the
run's lowest entry and no two consecutive surviving bands share an
airspace. -/
theorem pass1_matches_previous_surviving_rule :
    ∀ m : HMap, pass1 m = claimPass1 m ∧
      List.Chain' (fun a b : Int × AirspaceVector => a.2.airspace ≠ b.2.airspace) (pass1 m) := by
  intro m
  cases m with
  | nil => exact ⟨rfl, List.chain'_nil⟩
  | cons e rest =>
    obtain ⟨h, v⟩ := e
    refine ⟨?_, ?_⟩
    · rw [pass1, claimPass1, pass1Keep_eq_claim]
    · rw [pass1, pass1Keep_eq_claim]
      exact claimPass1Keep_chain rest v h

/-! ### Pass 2 (C4) -/

/-- The Pass 2 body compares each band to its *immediate predecessor in
the input order* (whether or not that predecessor survived): it equals a
filterMap over each entry zipped with its predecessor's vector. -/
lemma pass2Keep_eq_filterMap (l : HMap) : ∀ prev : AirspaceVector,
    pass2Keep prev l =
      (l.zip (prev :: l.map Prod.snd)).filterMap
        (fun cp => if nearDuplicate cp.2 cp.1.2 then none else some cp.1) := by
  induction l with
  | nil => intro prev; rfl
  | cons e rest ih =>
    intro prev
    obtain ⟨h, v⟩ := e
    simp only [List.map_cons, List.zip_cons_cons, List.filterMap_cons]
    by_cases hc : nearDuplicate prev v
    · have hcond : ¬(prev.getDistanceAsByte ≠ v.getDistanceAsByte ∨
          5 < ((prev.getAngleAsByte : Int) - (v.getAngleAsByte : Int)).natAbs) := by
        rcases hc with ⟨h1, h2⟩
        rintro (h3 | h4)
        · exact h3 h1
        · omega
      rw [pass2Keep, if_neg hcond, if_pos hc]
      exact ih v
    · have hcond : prev.getDistanceAsByte ≠ v.getDistanceAsByte ∨
          5 < ((prev.getAngleAsByte : Int) - (v.getAngleAsByte : Int)).natAbs := by
        by_cases h1 : prev.getDistanceAsByte = v.getDistanceAsByte
        · refine Or.inr ?_
          by_contra h2
          exact hc ⟨h1, by omega⟩
        · exact Or.inl h1
      rw [pass2Keep, if_pos hcond, if_neg hc, ih v]

/-- C4 (amended) — Pass 2 runs only when the Pass-1 result has more than
`levels` entries; the lowest band is always kept, and a later band is
dropped iff its encoded distance byte equals that of the *immediately
preceding band in the pre-Pass-2 order* (whether or not that band
survived) and their encoded bearing bytes differ by at most 5. -/
theorem pass2_matches_adjacent_rule :
    ∀ m : HMap, (m.length ≤ levels → pass2 m = m) ∧
      ∀ hd rest, m = hd :: rest → levels < m.length →
        pass2 m = hd :: (rest.zip (m.map Prod.snd)).filterMap
          (fun cp => if nearDuplicate cp.2 cp.1.2 then none else some cp.1) := by
  intro m
  constructor
  · intro hle
    unfold pass2
    rw [if_neg (not_lt.mpr hle)]
  · rintro hd rest rfl hlen
    obtain ⟨h, v⟩ := hd
    unfold pass2
    rw [if_pos hlen]
    exact congrArg (List.cons (h, v)) (pass2Keep_eq_filterMap rest v)

/-- C4 counterexample — on six bands with equal distance bytes and bearing
bytes 0, 5, 10, 15, 20, 25, the source's Pass 2 (comparing to the
immediate predecessor) keeps only the lowest band, while the claim's rule
(comparing to the previous *surviving* band) would keep three; Pass 2 as
implemented differs from the claim. -/
theorem pass2_counterexample : pass2 mC4 ≠ claimPass2 mC4 := by decide

/-- Witness for C4 (amended): `mC4` has six entries and Pass 2 reduces it
to its lowest band exactly as the adjacent-predecessor rule prescribes. -/
theorem pass2_matches_adjacent_rule_witness :
    pass2 mC4 = (0, mkAV 1 0) :: ((mC4.tail).zip (mC4.map Prod.snd)).filterMap
      (fun cp => if nearDuplicate cp.2 cp.1.2 then none else some cp.1) :=
  (pass2_matches_adjacent_rule mC4).2 (0, mkAV 1 0) mC4.tail (by decide) (by decide)

/-! ### Pass 3 (C1, C5) -/

/-- When every value of the list is inside, `findAirspacesNotInside`
returns the empty list. -/
lemma notInside_nil_of_all_inside {l : List AirspaceVector}
    (h : ∀ v ∈ l, v.inside = true) : findAirspacesNotInside l = [] := by
  induction l with
  | nil => rfl
  | cons a t ih =>
    have ha := h a (List.mem_cons_self a t)
    rw [findAirspacesNotInside, List.filter_cons]
    simp only [ha, Bool.not_true]
    exact ih fun v hv => h v (List.mem_cons_of_mem a hv)

/-- A successful Pass 3 run never ends with more than `levels` entries. -/
lemma pass3Loop_length_le : ∀ (fuel : Nat) (m m2 : HMap),
    pass3Loop fuel m = some m2 → m2.length ≤ levels := by
  intro fuel
  induction fuel with
  | zero =>
    intro m m2 h
    rw [pass3Loop] at h
    split at h
    · exact absurd h (by simp)
    · cases h
      omega
  | succ n ih =>
    intro m m2 h
    rw [pass3Loop] at h
    split at h
    · cases hstep : pass3Step m with
      | none => rw [hstep] at h; exact absurd h (by simp)
      | some m3 => rw [hstep] at h; exact ih m3 m2 h
    · cases h
      omega

/-- C1 — if at any Pass 3 iteration the surviving count still exceeds
`levels` and every surviving entry is inside, processing is fatal (the
source prints the point and calls `sys.exit(1)`, modelled as `none`); and
whenever Pass 3 completes, every inside entry of its input survives — an
inside entry is never silently dropped. -/
theorem pass3_fatal_and_inside_preserved :
    ∀ (fuel : Nat) (m : HMap),
      (levels < m.length → (∀ hv ∈ m, hv.2.inside = true) → pass3Loop fuel m = none) ∧
      (∀ m2, pass3Loop fuel m = some m2 → ∀ hv ∈ m, hv.2.inside = true → hv ∈ m2) := by
  intro fuel
  induction fuel with
  | zero =>
    intro m
    constructor
    · intro hlen _
      rw [pass3Loop, if_pos hlen]
    · intro m2 h hv hmem hin
      rw [pass3Loop] at h
      split at h
      · exact absurd h (by simp)
      · cases h
        exact hmem
  | succ n ih =>
    intro m
    constructor
    · intro hlen hins
      rw [pass3Loop, if_pos hlen]
      have hnil : findAirspacesNotInside (m.map Prod.snd) = [] := by
        refine notInside_nil_of_all_inside fun v hv => ?_
        obtain ⟨⟨hh, v'⟩, hmem, rfl⟩ := List.mem_map.mp hv
        exact hins (hh, v') hmem
      rw [pass3Step, hnil]
      rfl
    · intro m2 h hv hmem hin
      rw [pass3Loop] at h
      split at h
      · rw [pass3Step] at h
        cases hfar : findFarestAirspace (findAirspacesNotInside (m.map Prod.snd)) with
        | none => rw [hfar] at h; exact absurd h (by simp)
        | some far =>
          rw [hfar] at h
          simp only at h
          have hfarin : far.inside = false := by
            have hmemfar := findFarestAirspace_mem hfar
            have := List.mem_filter.mp hmemfar
            simpa using this.2
          refine (ih _).2 m2 h hv ?_ hin
          refine List.mem_filter.mpr ⟨hmem, ?_⟩
          simp only [decide_not, Bool.not_eq_eq_eq_not, Bool.not_true, decide_eq_false_iff_not]
          intro hcontra
          rw [hcontra] at hin
          rw [hin] at hfarin
          exact absurd hfarin (by simp)
      · cases h
        exact hmem

/-- Witness for C1: six simultaneous inside entries exceed the budget of
5 levels with no non-inside candidate, and Pass 3 is fatal. -/
theorem pass3_fatal_and_inside_preserved_witness : pass3Loop 6 mC1 = none :=
  (pass3_fatal_and_inside_preserved 6 mC1).1 (by decide) (by decide)

/-- C5 (amended) — an iteration of Pass 3 on a map with more than `levels`
entries and at least one non-inside entry succeeds and removes exactly the
entries whose vector equals the first-encountered maximum-distance
non-inside vector: at least one entry, but possibly several when the same
vector is the chosen vector of several bands. -/
theorem pass3_step_removes_first_farest :
    ∀ m : HMap, levels < m.length → (∃ hv ∈ m, hv.2.inside = false) →
      ∃ far, far.inside = false ∧
        isFirstFarest (findAirspacesNotInside (m.map Prod.snd)) far ∧
        pass3Step m = some (m.filter (fun hv => !decide (hv.2 = far))) := by
  intro m _ hex
  obtain ⟨hv, hmem, hout⟩ := hex
  have hne : findAirspacesNotInside (m.map Prod.snd) ≠ [] := by
    have : hv.2 ∈ findAirspacesNotInside (m.map Prod.snd) :=
      List.mem_filter.mpr ⟨List.mem_map.mpr ⟨hv, hmem, rfl⟩, by simp [hout]⟩
    exact List.ne_nil_of_mem this
  obtain ⟨far, hfar⟩ := findFarestAirspace_isSome hne
  have hfarin : far.inside = false := by
    have := List.mem_filter.mp (findFarestAirspace_mem hfar)
    simpa using this.2
  refine ⟨far, hfarin, findFarestAirspace_char hfar, ?_⟩
  rw [pass3Step, hfar]

/-- Witness for C5 (amended), applied at the concrete six-entry map `mC5`. -/
theorem pass3_step_removes_first_farest_witness :
    ∃ far, far.inside = false ∧
      isFirstFarest (findAirspacesNotInside (mC5.map Prod.snd)) far ∧
      pass3Step mC5 = some (mC5.filter (fun hv => !decide (hv.2 = far))) :=
  pass3_step_removes_first_farest mC5 (by decide) ⟨(0, avX), by decide, rfl⟩

/-- C5 counterexample — the sweep on `avsC5` produces the six-entry map
`mC5` (this map survives Pass 1 and Pass 2 unchanged), it contains a
non-inside entry, yet one single Pass 3 iteration removes *two* entries
(the same far vector is the chosen vector at heights 0 and 20), not
exactly one. -/
theorem pass3_step_counterexample :
    sortedAirspacesOf avsC5 = mC5 ∧ pass1 mC5 = mC5 ∧ pass2 mC5 = mC5 ∧
      mC5.length = 6 ∧ (∃ hv ∈ mC5, hv.2.inside = false) ∧
      pass3Step mC5 = some mC5r ∧ mC5r.length = 4 := by
  refine ⟨by decide, by decide, by decide, by decide, ⟨(0, avX), by decide, rfl⟩, by decide, by decide⟩

/-! ### Level decoding (C8) -/

/-- C8 — decoding a 4-byte level record: a ceiling byte whose low 7 bits
are all zero makes the whole record decode to "no airspace" regardless of
the other three bytes; a ceiling byte with low 7 bits `0x7F` decodes with
the `"MAX"` ceiling sentinel; and the all-zero record decodes to "no
airspace". -/
theorem decodeLevel_ceiling_sentinels :
    (∀ b0 b2 b3 b1 : Nat, b1 < 256 → b1 % 128 = 0 → decodeLevel b0 b1 b2 b3 = none) ∧
      (∀ b0 b2 b3 b1 : Nat, b1 % 128 = 127 →
        ∃ d, decodeLevel b0 b1 b2 b3 = some d ∧ d.ceil = CeilField.max) ∧
      decodeLevel 0 0 0 0 = none := by
  refine ⟨?_, ?_, by decide⟩
  · intro b0 b2 b3 b1 hlt hmod
    have hb : b1 = 0 ∨ b1 = 128 := by omega
    rw [decodeLevel]
    rcases hb with rfl | rfl <;> simp
  · intro b0 b2 b3 b1 hmod
    have hne : (if 127 < b1 then b1 - 128 else b1) * 250 ≠ 0 := by
      split <;> omega
    rw [decodeLevel]
    simp only [if_neg hne, hmod]
    exact ⟨_, rfl, by simp⟩

/-- Witness for C8: byte pattern (1, 128, 2, 3) is an empty level, byte
pattern (0, 127, 0, 0) decodes with the `"MAX"` ceiling. -/
theorem decodeLevel_ceiling_sentinels_witness :
    decodeLevel 1 128 2 3 = none ∧
      ∃ d, decodeLevel 0 127 0 0 = some d ∧ d.ceil = CeilField.max :=
  ⟨decodeLevel_ceiling_sentinels.1 1 2 3 128 (by decide) (by decide),
    decodeLevel_ceiling_sentinels.2.1 0 0 0 127 (by decide)⟩

/-! ### Tile skip (C9) -/

/-- C9 — when the tile's output file already exists and no force override
is given, `dump` returns `skipped` immediately: the existence test runs
before the buffer is allocated, before any `dumpPoint` computation and
before any write, so the existing file's bytes are untouched. -/
theorem dump_skips_existing_file :
    ∀ (avsAt : ℚ → ℚ → List AirspaceVector) (lat lon : Int) (numPoints : Nat),
      dump true false avsAt lat lon numPoints = some DumpResult.skipped := by
  intro avsAt lat lon numPoints
  rfl

/-! ### Breakpoint folds and the height sweep (C6, C3) -/

/-- `findLowestHeightInAirspaces` is a minimum fold over the floor list. -/
lemma findLowest_eq_map_fold (avs : List AirspaceVector) :
    findLowestHeightInAirspaces avs =
      (avs.map (fun av => av.airspace.getMin)).foldl
        (fun minHeight x =>
          match minHeight with
          | none => some x
          | some m => if x ≤ m then some x else some m)
        none := by
  rw [findLowestHeightInAirspaces, List.foldl_map]

/-- `findHighestHeightInAirspaces` is a maximum fold over the ceilings. -/
lemma findHighest_eq_map_fold (avs : List AirspaceVector) :
    findHighestHeightInAirspaces avs =
      (avs.map (fun av => av.airspace.getMax)).foldl
        (fun maxHeight x =>
          match maxHeight with
          | none => some x
          | some m => if m < x then some x else some m)
        none := by
  rw [findHighestHeightInAirspaces, List.foldl_map]

/-- Characterization of the integer minimum fold from a `some` start. -/
lemma intMin_fold_char (t : List Int) : ∀ c : Int,
    ∃ x, t.foldl
        (fun minHeight y =>
          match minHeight with
          | none => some y
          | some m => if y ≤ m then some y else some m)
        (some c) = some x ∧
      x ≤ c ∧ (x = c ∨ x ∈ t) ∧ ∀ y ∈ t, x ≤ y := by
  induction t with
  | nil => exact fun c => ⟨c, rfl, le_refl _, Or.inl rfl, by simp⟩
  | cons a t ih =>
    intro c
    by_cases hle : a ≤ c
    · obtain ⟨x, hx, hxc, hmem, hbnd⟩ := ih a
      refine ⟨x, by rw [List.foldl_cons]; simpa [hle] using hx, le_trans hxc hle, ?_, ?_⟩
      · rcases hmem with rfl | hm
        · exact Or.inr (List.mem_cons_self _ _)
        · exact Or.inr (List.mem_cons_of_mem _ hm)
      · intro y hy
        rcases List.mem_cons.mp hy with rfl | hy'
        · exact hxc
        · exact hbnd y hy'
    · obtain ⟨x, hx, hxc, hmem, hbnd⟩ := ih c
      refine ⟨x, by rw [List.foldl_cons]; simpa [hle] using hx, hxc, ?_, ?_⟩
      · rcases hmem with rfl | hm
        · exact Or.inl rfl
        · exact Or.inr (List.mem_cons_of_mem _ hm)
      · intro y hy
        rcases List.mem_cons.mp hy with rfl | hy'
        · exact le_trans hxc (le_of_not_le hle)
        · exact hbnd y hy'

/-- Characterization of the integer maximum fold from a `some` start. -/
lemma intMax_fold_char (t : List Int) : ∀ c : Int,
    ∃ x, t.foldl
        (fun maxHeight y =>
          match maxHeight with
          | none => some y
          | some m => if m < y then some y else some m)
        (some c) = some x ∧
      c ≤ x ∧ (x = c ∨ x ∈ t) ∧ ∀ y ∈ t, y ≤ x := by
  induction t with
  | nil => exact fun c => ⟨c, rfl, le_refl _, Or.inl rfl, by simp⟩
  | cons a t ih =>
    intro c
    by_cases hlt : c < a
    · obtain ⟨x, hx, hxc, hmem, hbnd⟩ := ih a
      refine ⟨x, by rw [List.foldl_cons]; simpa [hlt] using hx, le_trans (le_of_lt hlt) hxc, ?_, ?_⟩
      · rcases hmem with rfl | hm
        · exact Or.inr (List.mem_cons_self _ _)
        · exact Or.inr (List.mem_cons_of_mem _ hm)
      · intro y hy
        rcases List.mem_cons.mp hy with rfl | hy'
        · exact hxc
        · exact hbnd y hy'
    · obtain ⟨x, hx, hxc, hmem, hbnd⟩ := ih c
      refine ⟨x, by rw [List.foldl_cons]; simpa [hlt] using hx, hxc, ?_, ?_⟩
      · rcases hmem with rfl | hm
        · exact Or.inl rfl
        · exact Or.inr (List.mem_cons_of_mem _ hm)
      · intro y hy
        rcases List.mem_cons.mp hy with rfl | hy'
        · exact le_trans (le_of_not_lt hlt) hxc
        · exact hbnd y hy'

/-- `findLowestHeightInAirspaces` returns the minimum floor (spec: "hMin =
minimum floor among all vectors"). -/
lemma findLowest_char {avs : List AirspaceVector} {x : Int}
    (h : findLowestHeightInAirspaces avs = some x) :
    x ∈ avs.map (fun av => av.airspace.getMin) ∧
      ∀ y ∈ avs.map (fun av => av.airspace.getMin), x ≤ y := by
  rw [findLowest_eq_map_fold] at h
  cases hm : avs.map (fun av => av.airspace.getMin) with
  | nil => rw [hm] at h; exact absurd h (by simp)
  | cons a t =>
    rw [hm, List.foldl_cons] at h
    obtain ⟨x', hx', hxc, hmem, hbnd⟩ := intMin_fold_char t a
    have hxx : x = x' := by
      have := hx'.symm.trans h
      exact (Option.some_injective _ this).symm
    subst hxx
    constructor
    · rcases hmem with rfl | hm'
      · exact List.mem_cons_self _ _
      · exact List.mem_cons_of_mem _ hm'
    · intro y hy
      rcases List.mem_cons.mp hy with rfl | hy'
      · exact hxc
      · exact hbnd y hy'

/-- `findHighestHeightInAirspaces` returns the maximum ceiling (spec:
"hMax = maximum ceiling among all vectors"). -/
lemma findHighest_char {avs : List AirspaceVector} {x : Int}
    (h : findHighestHeightInAirspaces avs = some x) :
    x ∈ avs.map (fun av => av.airspace.getMax) ∧
      ∀ y ∈ avs.map (fun av => av.airspace.getMax), y ≤ x := by
  rw [findHighest_eq_map_fold] at h
  cases hm : avs.map (fun av => av.airspace.getMax) with
  | nil => rw [hm] at h; exact absurd h (by simp)
  | cons a t =>
    rw [hm, List.foldl_cons] at h
    obtain ⟨x', hx', hxc, hmem, hbnd⟩ := intMax_fold_char t a
    have hxx : x = x' := by
      have := hx'.symm.trans h
      exact (Option.some_injective _ this).symm
    subst hxx
    constructor
    · rcases hmem with rfl | hm'
      · exact List.mem_cons_self _ _
      · exact List.mem_cons_of_mem _ hm'
    · intro y hy
      rcases List.mem_cons.mp hy with rfl | hy'
      · exact hxc
      · exact hbnd y hy'

/-- `findNextHeightInAirspaces` is the `stepNext` fold over the flattened
floor/ceiling breakpoint list. -/
lemma findNext_eq_keyHeights_fold (avs : List AirspaceVector) (h : Int) :
    findNextHeightInAirspaces avs h = (keyHeights avs).foldl (stepNext h) none := by
  rw [findNextHeightInAirspaces]
  suffices hgen : ∀ acc : Option Int,
      avs.foldl (fun next av => stepNext h (stepNext h next av.airspace.getMin) av.airspace.getMax)
          acc = (keyHeights avs).foldl (stepNext h) acc by
    exact hgen none
  induction avs with
  | nil => intro acc; rfl
  | cons a t ih =>
    intro acc
    rw [List.foldl_cons, ih]
    rfl

/-- A `stepNext` fold keeps a `some` accumulator `some`. -/
lemma stepNext_fold_some (h : Int) (ks : List Int) : ∀ a : Int,
    ∃ y, ks.foldl (stepNext h) (some a) = some y := by
  induction ks with
  | nil => exact fun a => ⟨a, rfl⟩
  | cons k ks ih =>
    intro a
    rw [List.foldl_cons]
    by_cases hlt : h < k
    · simpa [stepNext, hlt] using ih (min a k)
    · simpa [stepNext, hlt] using ih a

/-- Characterization of a successful `stepNext` fold: the result is the
start accumulator or a breakpoint above `h`, it is a lower bound for every
breakpoint above `h`, and it never exceeds the start accumulator. -/
lemma stepNext_fold_char (h : Int) (ks : List Int) : ∀ (acc : Option Int) (x : Int),
    ks.foldl (stepNext h) acc = some x →
      (acc = some x ∨ (x ∈ ks ∧ h < x)) ∧ (∀ b ∈ ks, h < b → x ≤ b) ∧
        ∀ a, acc = some a → x ≤ a := by
  induction ks with
  | nil =>
    intro acc x hfold
    refine ⟨Or.inl hfold, by simp, ?_⟩
    intro a ha
    rw [ha] at hfold
    cases hfold
    exact le_refl _
  | cons k ks ih =>
    intro acc x hfold
    rw [List.foldl_cons] at hfold
    obtain ⟨hsrc, hbnd, hacc⟩ := ih (stepNext h acc k) x hfold
    by_cases hlt : h < k
    · cases acc with
      | none =>
        have hstep : stepNext h none k = some k := by simp [stepNext, hlt]
        rw [hstep] at hsrc hacc
        refine ⟨?_, ?_, ?_⟩
        · rcases hsrc with hk | ⟨hmem, hx⟩
          · have : x = k := (Option.some_injective _ hk.symm)
            exact Or.inr ⟨this ▸ List.mem_cons_self _ _, this ▸ hlt⟩
          · exact Or.inr ⟨List.mem_cons_of_mem _ hmem, hx⟩
        · intro b hb hhb
          rcases List.mem_cons.mp hb with rfl | hb'
          · exact hacc b rfl
          · exact hbnd b hb' hhb
        · intro a ha
          exact absurd ha (by simp)
      | some a0 =>
        have hstep : stepNext h (some a0) k = some (min a0 k) := by simp [stepNext, hlt]
        rw [hstep] at hsrc hacc
        have hxmin : x ≤ min a0 k := hacc (min a0 k) rfl
        refine ⟨?_, ?_, ?_⟩
        · rcases hsrc with hk | ⟨hmem, hx⟩
          · have hxeq : x = min a0 k := (Option.some_injective _ hk.symm)
            rcases le_total a0 k with hmk | hmk
            · exact Or.inl (by rw [hxeq, min_eq_left hmk])
            · refine Or.inr ⟨?_, ?_⟩
              · rw [hxeq, min_eq_right hmk]
                exact List.mem_cons_self _ _
              · rw [hxeq, min_eq_right hmk]
                exact hlt
          · exact Or.inr ⟨List.mem_cons_of_mem _ hmem, hx⟩
        · intro b hb hhb
          rcases List.mem_cons.mp hb with rfl | hb'
          · exact le_trans hxmin (min_le_right _ _)
          · exact hbnd b hb' hhb
        · intro a ha
          obtain rfl : a0 = a := Option.some_injective _ ha
          exact le_trans hxmin (min_le_left _ _)
    · have hstep : stepNext h acc k = acc := by simp [stepNext, hlt]
      rw [hstep] at hsrc hacc
      refine ⟨?_, ?_, hacc⟩
      · rcases hsrc with hk | ⟨hmem, hx⟩
        · exact Or.inl hk
        · exact Or.inr ⟨List.mem_cons_of_mem _ hmem, hx⟩
      · intro b hb hhb
        rcases List.mem_cons.mp hb with rfl | hb'
        · exact absurd hhb hlt
        · exact hbnd b hb' hhb

/-- A `stepNext` fold from `none` returns `none` exactly when no
breakpoint lies strictly above `h`. -/
lemma stepNext_fold_none (h : Int) (ks : List Int) : ∀ acc : Option Int,
    ks.foldl (stepNext h) acc = none → acc = none ∧ ∀ b ∈ ks, b ≤ h := by
  induction ks with
  | nil => exact fun acc hf => ⟨hf, by simp⟩
  | cons k ks ih =>
    intro acc hf
    rw [List.foldl_cons] at hf
    obtain ⟨hstep, hbnd⟩ := ih (stepNext h acc k) hf
    by_cases hlt : h < k
    · exfalso
      cases acc with
      | none => simp [stepNext, hlt] at hstep
      | some a => simp [stepNext, hlt] at hstep
    · have : stepNext h acc k = acc := by simp [stepNext, hlt]
      rw [this] at hstep
      refine ⟨hstep, ?_⟩
      intro b hb
      rcases List.mem_cons.mp hb with rfl | hb'
      · exact le_of_not_lt hlt
      · exact hbnd b hb'

/-- `findNextHeightInAirspaces` characterized (spec: "the smallest of all
vectors' floor/ceiling values that is strictly greater than the current
h"). -/
lemma findNext_char {avs : List AirspaceVector} {h x : Int}
    (hf : findNextHeightInAirspaces avs h = some x) :
    x ∈ keyHeights avs ∧ h < x ∧ ∀ b ∈ keyHeights avs, h < b → x ≤ b := by
  rw [findNext_eq_keyHeights_fold] at hf
  obtain ⟨hsrc, hbnd, -⟩ := stepNext_fold_char h (keyHeights avs) none x hf
  rcases hsrc with hnone | ⟨hmem, hx⟩
  · exact absurd hnone (by simp)
  · exact ⟨hmem, hx, hbnd⟩

/-- `findNextHeightInAirspaces` returns `none` exactly when no breakpoint
lies strictly above `h` (spec: "if no such breakpoint exists, stop"). -/
lemma findNext_none_char {avs : List AirspaceVector} {h : Int}
    (hf : findNextHeightInAirspaces avs h = none) : ∀ b ∈ keyHeights avs, b ≤ h := by
  rw [findNext_eq_keyHeights_fold] at hf
  exact (stepNext_fold_none h (keyHeights avs) none hf).2

/-- Every entry `(h, v)` the sweep emits satisfies: `h` is at or above the
sweep start, `h` is below `hMax`, and `v` is the vector `dumpPoint`
chooses for the band at `h`. -/
lemma sweepAux_mem (avs : List AirspaceVector) (hMax : Int) : ∀ (fuel : Nat) (h0 h : Int)
    (v : AirspaceVector), (h, v) ∈ sweepAux avs hMax fuel h0 →
      h0 ≤ h ∧ h < hMax ∧ chooseForBand avs h = some v := by
  intro fuel
  induction fuel with
  | zero =>
    intro h0 h v hmem
    simp [sweepAux] at hmem
  | succ n ih =>
    intro h0 h v hmem
    rw [sweepAux] at hmem
    by_cases hlt : h0 < hMax
    · rw [if_pos hlt] at hmem
      cases hch : chooseForBand avs h0 with
      | some v0 =>
        cases hnx : findNextHeightInAirspaces avs h0 with
        | some h1 =>
          rw [hch, hnx] at hmem
          rcases List.mem_cons.mp hmem with heq | hrest
          · injection heq with heq1 heq2
            subst heq1; subst heq2
            exact ⟨le_refl _, hlt, hch⟩
          · obtain ⟨h01, hhm, hcf⟩ := ih h1 h v hrest
            have h0h1 : h0 < h1 := (findNext_char hnx).2.1
            exact ⟨le_trans (le_of_lt h0h1) h01, hhm, hcf⟩
        | none =>
          rw [hch, hnx] at hmem
          rcases List.mem_cons.mp hmem with heq | hrest
          · injection heq with heq1 heq2
            subst heq1; subst heq2
            exact ⟨le_refl _, hlt, hch⟩
          · simp at hrest
      | none =>
        cases hnx : findNextHeightInAirspaces avs h0 with
        | some h1 =>
          rw [hch, hnx] at hmem
          obtain ⟨h01, hhm, hcf⟩ := ih h1 h v hmem
          have h0h1 : h0 < h1 := (findNext_char hnx).2.1
          exact ⟨le_trans (le_of_lt h0h1) h01, hhm, hcf⟩
        | none =>
          rw [hch, hnx] at hmem
          simp at hmem
    · rw [if_neg hlt] at hmem
      simp at hmem

/-- A sweep entry only exists when both `hMin` and `hMax` are defined, and
it comes from the sweep started at `hMin` bounded by `hMax`. -/
lemma sortedAirspacesOf_cases {avs : List AirspaceVector} {h : Int} {v : AirspaceVector}
    (hmem : (h, v) ∈ sortedAirspacesOf avs) :
    ∃ hMin hMax, findLowestHeightInAirspaces avs = some hMin ∧
      findHighestHeightInAirspaces avs = some hMax ∧
      (h, v) ∈ sweepAux avs hMax (2 * avs.length + 1) hMin := by
  rw [sortedAirspacesOf] at hmem
  split at hmem
  · rename_i hMin hMax h1 h2
    exact ⟨hMin, hMax, h1, h2, hmem⟩
  · simp at hmem

/-- A band with a chosen vector is covered by at least one vector. -/
lemma chooseForBand_band_ne_nil {avs : List AirspaceVector} {h : Int} {v : AirspaceVector}
    (hch : chooseForBand avs h = some v) : findAirspacesInHeight avs h ≠ [] := by
  intro hbad
  simp only [chooseForBand, hbad] at hch
  simp [findAirspacesInside, findNearestAirspace] at hch

/-- C3 — for every swept height band `(h, v)`: when some covering vector
is inside, `v` is the minimum-distance inside vector with ties resolved to
the first encountered in input order; otherwise `v` is the
minimum-distance vector among all covering vectors with the same
tie-break. -/
theorem band_choice_prefers_inside_nearest :
    ∀ (avs : List AirspaceVector) (h : Int) (v : AirspaceVector),
      (h, v) ∈ sortedAirspacesOf avs →
      (findAirspacesInside (findAirspacesInHeight avs h) ≠ [] →
        isFirstNearest (findAirspacesInside (findAirspacesInHeight avs h)) v) ∧
      (findAirspacesInside (findAirspacesInHeight avs h) = [] →
        isFirstNearest (findAirspacesInHeight avs h) v) := by
  intro avs h v hmem
  obtain ⟨hMin, hMax, -, -, hsw⟩ := sortedAirspacesOf_cases hmem
  have hch : chooseForBand avs h = some v := (sweepAux_mem avs hMax _ hMin h v hsw).2.2
  constructor
  · intro hne
    simp only [chooseForBand] at hch
    rw [if_neg hne] at hch
    exact findNearestAirspace_char hch
  · intro heq
    simp only [chooseForBand] at hch
    rw [if_pos heq] at hch
    exact findNearestAirspace_char hch

/-- Witness for C3 at the concrete band (10, avY) of `avsC5`: no covering
vector is inside, and avY is the first minimum-distance covering vector. -/
theorem band_choice_prefers_inside_nearest_witness :
    (findAirspacesInside (findAirspacesInHeight avsC5 10) ≠ [] →
      isFirstNearest (findAirspacesInside (findAirspacesInHeight avsC5 10)) avY) ∧
    (findAirspacesInside (findAirspacesInHeight avsC5 10) = [] →
      isFirstNearest (findAirspacesInHeight avsC5 10) avY) :=
  band_choice_prefers_inside_nearest avsC5 10 avY (by decide)

/-- C6 — the height sweep: `hMin` is the minimum floor, `hMax` the maximum
ceiling, the advance target is the least floor/ceiling breakpoint strictly
above the current height (and the sweep stops when none exists), every
emitted band lies in `[hMin, hMax)`, and a band with no covering vector
produces no map entry. -/
theorem sweep_structure :
    ∀ avs : List AirspaceVector,
      (∀ x, findLowestHeightInAirspaces avs = some x →
        x ∈ avs.map (fun av => av.airspace.getMin) ∧
          ∀ y ∈ avs.map (fun av => av.airspace.getMin), x ≤ y) ∧
      (∀ x, findHighestHeightInAirspaces avs = some x →
        x ∈ avs.map (fun av => av.airspace.getMax) ∧
          ∀ y ∈ avs.map (fun av => av.airspace.getMax), y ≤ x) ∧
      (∀ h x, findNextHeightInAirspaces avs h = some x →
        x ∈ keyHeights avs ∧ h < x ∧ ∀ b ∈ keyHeights avs, h < b → x ≤ b) ∧
      (∀ h, findNextHeightInAirspaces avs h = none → ∀ b ∈ keyHeights avs, b ≤ h) ∧
      (∀ h v, (h, v) ∈ sortedAirspacesOf avs →
        findAirspacesInHeight avs h ≠ [] ∧
          ∃ hMin hMax, findLowestHeightInAirspaces avs = some hMin ∧
            findHighestHeightInAirspaces avs = some hMax ∧ hMin ≤ h ∧ h < hMax) := by
  intro avs
  refine ⟨fun x hx => findLowest_char hx, fun x hx => findHighest_char hx,
    fun h x hx => findNext_char hx, fun h hx => findNext_none_char hx, ?_⟩
  intro h v hmem
  obtain ⟨hMin, hMax, h1, h2, hsw⟩ := sortedAirspacesOf_cases hmem
  obtain ⟨hle, hlt, hch⟩ := sweepAux_mem avs hMax _ hMin h v hsw
  exact ⟨chooseForBand_band_ne_nil hch, hMin, hMax, h1, h2, hle, hlt⟩

/-- Witness for C6 at the concrete entry (0, avX) of the sweep on `avsC5`. -/
theorem sweep_structure_witness :
    findAirspacesInHeight avsC5 0 ≠ [] ∧
      ∃ hMin hMax, findLowestHeightInAirspaces avsC5 = some hMin ∧
        findHighestHeightInAirspaces avsC5 = some hMax ∧ hMin ≤ 0 ∧ (0 : Int) < hMax :=
  (sweep_structure avsC5).2.2.2.2 0 avX (by decide)

/-! ### Point encoding size and frame (C2) -/

/-- Setting position `l1.length` of `l1 ++ x :: l2` replaces `x`. -/
lemma set_length_append (l1 : List Nat) (x b : Nat) (l2 : List Nat) :
    (l1 ++ x :: l2).set l1.length b = l1 ++ b :: l2 := by
  induction l1 with
  | nil => rfl
  | cons a t ih => simp only [List.cons_append, List.length_cons, List.set_cons_succ, ih]

/-- The byte-writing loop splices its byte list over the same-length
middle segment of the buffer. -/
lemma writeBytes_splice : ∀ (bs l1 mid l2 : List Nat), mid.length = bs.length →
    writeBytes (l1 ++ mid ++ l2) l1.length bs = l1 ++ bs ++ l2 := by
  intro bs
  induction bs with
  | nil =>
    intro l1 mid l2 hlen
    rw [List.length_eq_zero.mp hlen]
    rfl
  | cons b rest ih =>
    intro l1 mid l2 hlen
    cases mid with
    | nil => exact absurd hlen (by simp)
    | cons m0 mrest =>
      rw [writeBytes]
      have hset : (l1 ++ (m0 :: mrest) ++ l2).set l1.length b = l1 ++ (b :: mrest) ++ l2 := by
        rw [List.append_assoc l1, List.cons_append, set_length_append, ← List.cons_append,
          ← List.append_assoc]
      rw [hset]
      have hlen1 : (l1 ++ [b]).length = l1.length + 1 := by simp
      have hmid : mrest.length = rest.length := by simpa using hlen
      have hkey := ih (l1 ++ [b]) mrest l2 hmid
      rw [hlen1] at hkey
      have hl : l1 ++ [b] ++ mrest ++ l2 = l1 ++ (b :: mrest) ++ l2 := by simp
      have hr : l1 ++ [b] ++ rest ++ l2 = l1 ++ (b :: rest) ++ l2 := by simp
      rw [hl, hr] at hkey
      exact hkey

/-- The byte-writing loop with headroom: take/bytes/drop decomposition. -/
lemma writeBytes_eq_append (bs out : List Nat) (off : Nat)
    (h : off + bs.length ≤ out.length) :
    writeBytes out off bs =
      out.take off ++ bs ++ out.drop (off + bs.length) := by
  have hsplit : out = out.take off ++ (out.drop off).take bs.length ++ out.drop (off + bs.length) := by
    rw [List.append_assoc]
    conv_lhs => rw [← List.take_append_drop off out]
    congr 1
    conv_lhs => rw [← List.take_append_drop bs.length (out.drop off)]
    rw [List.drop_drop]
  have hofflen : (out.take off).length = off := by
    rw [List.length_take]
    omega
  have hmidlen : ((out.drop off).take bs.length).length = bs.length := by
    rw [List.length_take, List.length_drop]
    omega
  have hkey := writeBytes_splice bs (out.take off) ((out.drop off).take bs.length)
    (out.drop (off + bs.length)) hmidlen
  rw [hofflen, ← hsplit] at hkey
  exact hkey

/-- Each level record is 4 bytes. -/
lemma getBytes_length (av : AirspaceVector) : av.getBytes.length = 4 := rfl

/-- Total length of the concatenated surviving records. -/
lemma flatten_getBytes_length : ∀ l : List AirspaceVector,
    ((l.map AirspaceVector.getBytes).flatten).length = 4 * l.length := by
  intro l
  induction l with
  | nil => rfl
  | cons a t ih =>
    rw [List.map_cons, List.flatten_cons, List.length_append, ih, getBytes_length,
      List.length_cons]
    ring

/-- The padding records are all-zero bytes. -/
lemma replicate_empty_getBytes : ∀ n : Nat,
    ((List.replicate n AirspaceVector.empty).map AirspaceVector.getBytes).flatten =
      List.replicate (4 * n) 0 := by
  intro n
  induction n with
  | zero => rfl
  | succ k ih =>
    rw [List.replicate_succ, List.map_cons, List.flatten_cons, ih]
    have hemp : AirspaceVector.empty.getBytes = List.replicate 4 0 := by decide
    rw [hemp]
    have h4 : 4 * (k + 1) = 4 + 4 * k := by ring
    rw [h4, ← List.replicate_add]

/-- Characterization of a successful `dumpPointBytes`: the byte list is
the surviving records followed by all-zero padding, `levels * sizeof_level`
bytes in total. -/
lemma dumpPointBytes_char {avs : List AirspaceVector} {bs : List Nat}
    (h : dumpPointBytes avs = some bs) :
    ∃ m, compactAirspacesOf avs = some m ∧ m.length ≤ levels ∧
      bs = ((m.map Prod.snd).map AirspaceVector.getBytes).flatten ++
        List.replicate (sizeof_level * (levels - m.length)) 0 ∧
      bs.length = levels * sizeof_level := by
  rw [dumpPointBytes] at h
  cases hc : compactAirspacesOf avs with
  | none => rw [hc] at h; exact absurd h (by simp)
  | some m =>
    rw [hc] at h
    simp only [Option.map_some'] at h
    have hle : m.length ≤ levels := by
      rw [compactAirspacesOf] at hc
      exact pass3Loop_length_le _ _ _ hc
    have hx := Option.some_injective _ h
    have hbs : bs = ((m.map Prod.snd).map AirspaceVector.getBytes).flatten ++
        List.replicate (sizeof_level * (levels - m.length)) 0 := by
      rw [← hx, replicate_empty_getBytes]
      rfl
    refine ⟨m, rfl, hle, hbs, ?_⟩
    rw [hbs, List.length_append, flatten_getBytes_length, List.length_map,
      List.length_replicate]
    show 4 * m.length + 4 * (levels - m.length) = levels * 4
    omega

/-- C2 — for every candidate set (including the empty one) on which
`dumpPoint` completes, exactly `levels * sizeof_level = 20` bytes are
written at `offset`: the surviving entries' 4-byte records in ascending
altitude order followed by all-zero padding records, and every byte of the
buffer before `offset` or at/after `offset + 20` is unchanged. -/
theorem dumpPoint_writes_exactly_level_bytes :
    ∀ (avs : List AirspaceVector) (output : List Nat) (offset : Nat) (out2 : List Nat),
      dumpPoint output offset avs = some out2 →
      offset + levels * sizeof_level ≤ output.length →
      out2.length = output.length ∧
        out2.take offset = output.take offset ∧
        out2.drop (offset + levels * sizeof_level) = output.drop (offset + levels * sizeof_level) ∧
        ∃ m, compactAirspacesOf avs = some m ∧ m.length ≤ levels ∧
          (out2.drop offset).take (levels * sizeof_level) =
            ((m.map Prod.snd).map AirspaceVector.getBytes).flatten ++
              List.replicate (sizeof_level * (levels - m.length)) 0 := by
  intro avs output offset out2 hdp hroom
  rw [dumpPoint] at hdp
  cases hbs : dumpPointBytes avs with
  | none => rw [hbs] at hdp; exact absurd hdp (by simp)
  | some bs =>
    rw [hbs] at hdp
    simp only [Option.map_some'] at hdp
    have hout : writeBytes output offset bs = out2 := Option.some_injective _ hdp
    obtain ⟨m, hm, hmle, hbseq, hbslen⟩ := dumpPointBytes_char hbs
    have hw : out2 = output.take offset ++ bs ++ output.drop (offset + levels * sizeof_level) := by
      rw [← hout, writeBytes_eq_append bs output offset (by omega), hbslen]
    have hofflen : (output.take offset).length = offset := by
      rw [List.length_take]
      omega
    refine ⟨?_, ?_, ?_, m, hm, hmle, ?_⟩
    · rw [hw]
      simp only [List.length_append, List.length_take, List.length_drop]
      omega
    · rw [hw, List.append_assoc, List.take_left' hofflen]
    · rw [hw]
      refine List.drop_left' ?_
      rw [List.length_append, hofflen, hbslen]
    · rw [hw, List.append_assoc, List.drop_left' hofflen, List.take_left' hbslen, hbseq]

/-- Witness for C2: writing the empty candidate set at offset 2 of a
25-byte buffer of sevens. -/
theorem dumpPoint_writes_exactly_level_bytes_witness :
    (writeBytes (List.replicate 25 7) 2 (List.replicate (levels * sizeof_level) 0)).length
        = (List.replicate 25 7 : List Nat).length ∧
      (writeBytes (List.replicate 25 7) 2 (List.replicate (levels * sizeof_level) 0)).take 2
        = (List.replicate 25 7 : List Nat).take 2 ∧
      (writeBytes (List.replicate 25 7) 2
          (List.replicate (levels * sizeof_level) 0)).drop (2 + levels * sizeof_level)
        = (List.replicate 25 7 : List Nat).drop (2 + levels * sizeof_level) ∧
      ∃ m, compactAirspacesOf [] = some m ∧ m.length ≤ levels ∧
        ((writeBytes (List.replicate 25 7) 2
            (List.replicate (levels * sizeof_level) 0)).drop 2).take (levels * sizeof_level) =
          ((m.map Prod.snd).map AirspaceVector.getBytes).flatten ++
            List.replicate (sizeof_level * (levels - m.length)) 0 :=
  dumpPoint_writes_exactly_level_bytes [] (List.replicate 25 7) 2 _ (by decide) (by decide)

/-! ### Tile emptiness pre-check (C10) -/

/-- Writing a zero into an all-zero buffer changes nothing. -/
lemma set_replicate_zero : ∀ (n i : Nat), (List.replicate n (0 : Nat)).set i 0 = List.replicate n 0 := by
  intro n
  induction n with
  | zero => intro i; rfl
  | succ k ih =>
    intro i
    cases i with
    | zero => simp [List.replicate_succ]
    | succ j => simp [List.replicate_succ, ih]

/-- Writing all-zero bytes into an all-zero buffer changes nothing. -/
lemma writeBytes_zero : ∀ (k off n : Nat),
    writeBytes (List.replicate n 0) off (List.replicate k 0) = List.replicate n 0 := by
  intro k
  induction k with
  | zero => intro off n; rfl
  | succ j ih =>
    intro off n
    rw [List.replicate_succ, writeBytes, set_replicate_zero]
    exact ih (off + 1) n

/-- Reading any position of an all-zero buffer yields zero. -/
lemma getD_replicate_zero : ∀ (n k : Nat), (List.replicate n (0 : Nat)).getD k 0 = 0 := by
  intro n
  induction n with
  | zero => intro k; cases k <;> rfl
  | succ m ih =>
    intro k
    cases k with
    | zero => rfl
    | succ j =>
      rw [List.replicate_succ]
      simp [List.getD]

/-- An all-zero buffer passes the all-zero scan. -/
lemma replicate_zero_all (n : Nat) :
    (List.replicate n (0 : Nat)).all (fun b => decide (b = 0)) = true := by
  rw [List.all_eq_true]
  intro b hb
  have := List.eq_of_mem_replicate hb
  simp [this]

/-- When every sampled point's record is all-zero, the quick-check loop
leaves the buffer all-zero and the `isEmpty` flag set. -/
lemma quickCheck_all_zero (avsAt : ℚ → ℚ → List AirspaceVector) : ∀ (pts : List (ℚ × ℚ)) (n : Nat),
    (∀ pt ∈ pts, dumpPointBytes (avsAt pt.1 pt.2) =
      some (List.replicate (levels * sizeof_level) 0)) →
    quickCheck avsAt pts (List.replicate n 0) true = some (List.replicate n 0, true) := by
  intro pts
  induction pts with
  | nil => intro n _; rfl
  | cons p rest ih =>
    intro n hall
    obtain ⟨x, y⟩ := p
    have hbs : dumpPointBytes (avsAt x y) = some (List.replicate (levels * sizeof_level) 0) :=
      hall (x, y) (List.mem_cons_self _ _)
    have hdp : dumpPoint (List.replicate n 0) 0 (avsAt x y) = some (List.replicate n 0) := by
      rw [dumpPoint, hbs, Option.map_some', writeBytes_zero]
    rw [quickCheck]
    simp only [hdp]
    have hempty : ((List.range (levels * sizeof_level)).all
        (fun k => decide ((List.replicate n (0 : Nat)).getD k 0 = 0))) = true := by
      rw [List.all_eq_true]
      intro k _
      simp [getD_replicate_zero]
    rw [hempty, Bool.and_true]
    exact ih n fun pt hpt => hall pt (List.mem_cons_of_mem _ hpt)

/-- The universal half of C10: if every point of the fixed 10x10 sample
grid yields an all-zero record, the tile produces no output file,
regardless of what the full raster would contain. -/
lemma dump_noFile_of_samples_zero :
    ∀ (avsAt : ℚ → ℚ → List AirspaceVector) (lat lon : Int) (numPoints : Nat),
      (∀ pt ∈ samplePoints lat lon, dumpPointBytes (avsAt pt.1 pt.2) =
        some (List.replicate (levels * sizeof_level) 0)) →
      dump false false avsAt lat lon numPoints = some DumpResult.noFile := by
  intro avsAt lat lon numPoints hall
  rw [dump]
  have hq := quickCheck_all_zero avsAt (samplePoints lat lon)
    (numPoints * numPoints * levels * sizeof_level) hall
  simp only [Bool.false_and, Bool.not_false, if_neg, hq, replicate_zero_all, if_pos]
  rfl

/-- Every point of the 10x10 sample grid of tile (0, 0) sees no airspace
from `avsAtW` (the special point 1/3 is never a multiple of 1/10), so
every sampled record is all-zero. -/
lemma avsAtW_samples_zero :
    ∀ pt ∈ samplePoints 0 0, dumpPointBytes (avsAtW pt.1 pt.2) =
      some (List.replicate (levels * sizeof_level) 0) := by
  intro pt hpt
  rw [samplePoints] at hpt
  simp only [List.mem_flatMap, List.mem_map, List.mem_range] at hpt
  obtain ⟨i, hi, j, hj, rfl⟩ := hpt
  have hx : ((0 : Int) : ℚ) + (j : ℚ) / 10 ≠ 1 / 3 := by
    intro hEq
    rw [Int.cast_zero, zero_add] at hEq
    have h3 : (j : ℚ) * 3 = 10 := by
      field_simp at hEq
      linarith
    have h4 : j * 3 = 10 := by exact_mod_cast h3
    omega
  have hcond : ¬(((0 : Int) : ℚ) + (j : ℚ) / 10 = 1 / 3 ∧
      ((0 : Int) : ℚ) + (i : ℚ) / 10 = 1 / 3) := fun hc => hx hc.1
  simp only [avsAtW]
  rw [if_neg hcond]
  decide

/-- The raster point (1/3, 1/3) lies on the 3x3 grid of tile (0, 0), at
cell (i, j) = (1, 1), byte offset 80. -/
lemma gridPointW_mem : ((1 : ℚ) / 3, (1 : ℚ) / 3, (80 : Nat)) ∈ gridPoints 0 0 3 := by
  rw [gridPoints]
  refine List.mem_flatMap.mpr ⟨1, by simp, ?_⟩
  refine List.mem_map.mpr ⟨1, by simp, ?_⟩
  show ((0 : Int) + (1 : ℚ) / 3, (0 : Int) + (1 : ℚ) / 3,
    (((3 - 1 - 1) * 3 + 1) * (levels * sizeof_level) : Nat)) = _
  norm_num [levels, sizeof_level]

/-- C10 — the tile-emptiness pre-check decides from the fixed 10x10 sample
grid alone: whenever every sampled point's record is all-zero, `dump`
produces no output file for the tile; and there is a concrete provider
(`avsAtW`, tile (0, 0), resolution 3) whose samples are all zero although
a full-raster grid point yields a nonzero record — its file is still
omitted. -/
theorem dump_empty_precheck_from_samples :
    (∀ (avsAt : ℚ → ℚ → List AirspaceVector) (lat lon : Int) (numPoints : Nat),
      (∀ pt ∈ samplePoints lat lon, dumpPointBytes (avsAt pt.1 pt.2) =
        some (List.replicate (levels * sizeof_level) 0)) →
      dump false false avsAt lat lon numPoints = some DumpResult.noFile) ∧
    ∃ (pt : ℚ × ℚ × Nat) (bs : List Nat),
      (∀ pt2 ∈ samplePoints 0 0, dumpPointBytes (avsAtW pt2.1 pt2.2) =
        some (List.replicate (levels * sizeof_level) 0)) ∧
      pt ∈ gridPoints 0 0 3 ∧
      dumpPointBytes (avsAtW pt.1 pt.2.1) = some bs ∧
      bs ≠ List.replicate (levels * sizeof_level) 0 ∧
      dump false false avsAtW 0 0 3 = some DumpResult.noFile := by
  refine ⟨dump_noFile_of_samples_zero,
    ⟨((1 : ℚ) / 3, (1 : ℚ) / 3, (80 : Nat)),
      [0, 4, 128, 0, 0, 0, 0, 0, 0, 0, 0, 0, 0, 0, 0, 0, 0, 0, 0, 0],
      avsAtW_samples_zero, gridPointW_mem, ?_, by decide,
      dump_noFile_of_samples_zero avsAtW 0 0 3 avsAtW_samples_zero⟩⟩
  show dumpPointBytes (avsAtW (1 / 3) (1 / 3)) = _
  have havs : avsAtW (1 / 3) (1 / 3) = [avW] := by
    simp [avsAtW]
  rw [havs]
  decide

/-- Witness for C10: the concrete provider `avsAtW` on tile (0, 0) at
resolution 3 produces no output file. -/
theorem dump_empty_precheck_from_samples_witness :
    dump false false avsAtW 0 0 3 = some DumpResult.noFile :=
  dump_empty_precheck_from_samples.1 avsAtW 0 0 3 avsAtW_samples_zero
